import Mathlib

/-
Verification development for the categraf mtail input plugin
(src/inputs/mtail/mtail.go): the mtail metric-flattening path and the
github-style multi-repository fan-out path that share that file.

Shallow embedding conventions:
- Go float64 values are modelled by `GoFloat` (NaN or a rational value);
  arithmetic is never needed by the embedded code paths.
- Go maps are modelled as association lists whose insert overwrites an
  existing key in place and otherwise appends; Go map reference semantics,
  where a claim needs them, are modelled with an explicit heap of maps.
- fallible Go functions return `Except`/`Option`; a Go runtime panic is
  modelled as `none`.
-/

namespace Categraf

/-- Model of a Go float64 value: NaN or a numeric value represented as a
rational. Infinities never arise on the embedded code paths. -/
inductive GoFloat where
  | nan : GoFloat
  | val : ℚ → GoFloat
  deriving DecidableEq, Repr

/-- Model of math.IsNaN. -/
def GoFloat.isNaN : GoFloat → Bool
  | .nan => true
  | .val _ => false

/-- Model of fmt.Sprint on a float64: a decimal rendering of the value. The
claims only require that a tag equal the rendered number, so the exact digit
string is abstracted to the rational's canonical rendering. -/
def fmtFloat : GoFloat → String
  | .nan => "NaN"
  | .val q => toString q

/-- Model of strings.HasPrefix. -/
def goHasPfx (s pfx : String) : Bool := pfx.data.isPrefixOf s.data

/-- Model of insertion into a Go map represented as an association list:
overwrite an existing key in place, otherwise append the new pair. -/
def insertKV {β : Type} (m : List (String × β)) (k : String) (v : β) :
    List (String × β) :=
  if m.any (fun p => p.1 == k) then
    m.map (fun p => if p.1 == k then (k, v) else p)
  else m ++ [(k, v)]

/-- Lookup in the association-list model of a Go map. -/
def lookupKV {β : Type} (m : List (String × β)) (k : String) : Option β :=
  (m.find? (fun p => p.1 == k)).map (fun p => p.2)

abbrev Tags := List (String × String)

/-- Canonical output sample: name, value, tags. -/
structure Sample where
  name : String
  value : GoFloat
  tags : Tags
  deriving DecidableEq, Repr

/-- Modelled from the spec: types.NewSample (package types, not under src/).
Builds a sample from a metric name, a value and tag maps; the extra
per-sample tag maps are overlaid over the base tags, later layers
overwriting earlier keys. -/
def NewSample (name : String) (value : GoFloat) (tags : Tags)
    (extras : List Tags) : Sample :=
  { name := name, value := value,
    tags := extras.foldl (fun acc ex => ex.foldl (fun a p => insertKV a p.1 p.2) acc) tags }

abbrev SampleList := List Sample

/-- Model of types.SampleList.PushFront. -/
def SampleList.pushFront (l : SampleList) (s : Sample) : SampleList := s :: l

/-- Modelled from the spec: prom.BuildMetric (pkg/prom, not under src/).
Name composition: the prefix is prepended to the name, and a non-empty
suffix is appended after an underscore; the has-prefix check is made by
the callers in src/inputs/mtail/mtail.go. -/
def BuildMetric (pfx name suffix : String) : String :=
  if suffix = "" then pfx ++ name else pfx ++ name ++ "_" ++ suffix

namespace Mtail

/-- Model of a dto.Summary quantile pair. -/
structure QuantilePair where
  quantile : GoFloat
  value : GoFloat
  deriving DecidableEq, Repr

/-- Model of a dto.Histogram bucket. -/
structure Bucket where
  upperBound : GoFloat
  cumulativeCount : Nat
  deriving DecidableEq, Repr

/-- Model of dto.Summary. -/
structure SummaryData where
  sampleCount : Nat
  sampleSum : GoFloat
  quantile : List QuantilePair
  deriving DecidableEq, Repr

/-- Model of dto.Histogram. -/
structure HistogramData where
  sampleCount : Nat
  sampleSum : GoFloat
  bucket : List Bucket
  deriving DecidableEq, Repr

/-- Model of dto.Metric: optional payloads, one per metric kind, as in the
protobuf message. -/
structure Metric where
  gauge : Option GoFloat
  counter : Option GoFloat
  untyped : Option GoFloat
  summary : Option SummaryData
  histogram : Option HistogramData
  deriving DecidableEq, Repr

/-- Model of dto.MetricType: the protobuf enum's raw values, kept open-ended
so unrecognized kinds are representable. -/
abbrev MetricType := Int

def MetricType_SUMMARY : MetricType := 2

def MetricType_HISTOGRAM : MetricType := 4

/-- Model of a dto.MetricFamily. -/
structure MetricFamily where
  name : String
  type : MetricType
  metric : List Metric
  deriving DecidableEq, Repr

/-- Model of the mtail Instance configuration fields read by Gather:
the configured name prefix (field NamePrefix in the source, rendered
NamePfx here) and the static instance Labels. -/
structure Instance where
  NamePfx : String
  Labels : Tags
  deriving DecidableEq, Repr

/-- Model of Instance.makeLabels: allocate a fresh empty map and copy every
static instance label into it. -/
def Instance.makeLabels (p : Instance) : Tags :=
  p.Labels.foldl (fun result kv => insertKV result kv.1 kv.2) []

/-- Model of Instance.HandleSummary: push count, sum, then one sample per
declared quantile tagged with the rendered quantile. -/
def Instance.HandleSummary (p : Instance) (m : Metric) (tags : Tags)
    (metricName : String) (slist : SampleList) : SampleList :=
  let namePfx := if goHasPfx metricName p.NamePfx then "" else p.NamePfx
  let s := m.summary.getD ⟨0, .val 0, []⟩
  let slist := slist.pushFront
    (NewSample (BuildMetric namePfx metricName "count") (.val (s.sampleCount : ℚ)) tags [])
  let slist := slist.pushFront
    (NewSample (BuildMetric namePfx metricName "sum") s.sampleSum tags [])
  s.quantile.foldl
    (fun sl q => sl.pushFront
      (NewSample (BuildMetric namePfx metricName "") q.value tags
        [[("quantile", fmtFloat q.quantile)]])) slist

/-- Model of Instance.HandleHistogram: push count, sum, the synthetic +Inf
bucket valued at the total sample count, then one sample per declared
bucket tagged with its rendered upper bound. -/
def Instance.HandleHistogram (p : Instance) (m : Metric) (tags : Tags)
    (metricName : String) (slist : SampleList) : SampleList :=
  let namePfx := if goHasPfx metricName p.NamePfx then "" else p.NamePfx
  let h := m.histogram.getD ⟨0, .val 0, []⟩
  let slist := slist.pushFront
    (NewSample (BuildMetric namePfx metricName "count") (.val (h.sampleCount : ℚ)) tags [])
  let slist := slist.pushFront
    (NewSample (BuildMetric namePfx metricName "sum") h.sampleSum tags [])
  let slist := slist.pushFront
    (NewSample (BuildMetric namePfx metricName "bucket") (.val (h.sampleCount : ℚ)) tags
      [[("le", "+Inf")]])
  h.bucket.foldl
    (fun sl b => sl.pushFront
      (NewSample (BuildMetric namePfx metricName "bucket") (.val (b.cumulativeCount : ℚ)) tags
        [[("le", fmtFloat b.upperBound)]])) slist

/-- Model of getNameAndValue: pick the single numeric payload (gauge, then
counter, then untyped), dropping a NaN value; the resulting Go map has at
most one entry. -/
def getNameAndValue (m : Metric) (metricName : String) : List (String × GoFloat) :=
  match m.gauge with
  | some v => if v.isNaN then [] else [(metricName, v)]
  | none =>
    match m.counter with
    | some v => if v.isNaN then [] else [(metricName, v)]
    | none =>
      match m.untyped with
      | some v => if v.isNaN then [] else [(metricName, v)]
      | none => []

/-- Model of Instance.handleGaugeCounter: push one sample per field of
getNameAndValue, prepending the configured name prefix only when the field
name does not already start with it. -/
def Instance.handleGaugeCounter (p : Instance) (m : Metric) (tags : Tags)
    (metricName : String) (slist : SampleList) : SampleList :=
  (getNameAndValue m metricName).foldl
    (fun sl f =>
      if !(goHasPfx f.1 p.NamePfx) then
        sl.pushFront (NewSample (BuildMetric p.NamePfx f.1 "") f.2 tags [])
      else
        sl.pushFront (NewSample (BuildMetric "" f.1 "") f.2 tags [])) slist

/-- Model of the kind dispatch inside Instance.Gather (mtail): SUMMARY to
HandleSummary, HISTOGRAM to HandleHistogram, every other declared kind to
handleGaugeCounter. -/
def Instance.dispatchMetric (ins : Instance) (t : MetricType) (m : Metric)
    (tags : Tags) (metricName : String) (slist : SampleList) : SampleList :=
  if t = MetricType_SUMMARY then ins.HandleSummary m tags metricName slist
  else if t = MetricType_HISTOGRAM then ins.HandleHistogram m tags metricName slist
  else ins.handleGaugeCounter m tags metricName slist

/-- Model of Instance.Gather (mtail): iterate the gathered metric families
and their metrics, make fresh labels per metric, and dispatch on the
family's declared kind. -/
def Instance.Gather (ins : Instance) (mfs : List MetricFamily)
    (slist : SampleList) : SampleList :=
  mfs.foldl
    (fun sl mf =>
      mf.metric.foldl
        (fun sl2 m => ins.dispatchMetric mf.type m ins.makeLabels mf.name sl2) sl) slist

/-- Heap of Go maps, modelling Go map reference semantics: a map variable is
an index into the heap, and writing through one reference must not change
the map behind a different reference. -/
structure MapHeap where
  maps : List Tags
  deriving DecidableEq, Repr

/-- Read the map behind a reference. -/
def MapHeap.get (h : MapHeap) (r : Nat) : Tags := h.maps.getD r []

/-- Write the map behind a reference. -/
def MapHeap.set (h : MapHeap) (r : Nat) (m : Tags) : MapHeap := ⟨h.maps.set r m⟩

/-- Allocate a fresh map, returning the extended heap and the new
reference. -/
def MapHeap.alloc (h : MapHeap) (m : Tags) : MapHeap × Nat :=
  (⟨h.maps ++ [m]⟩, h.maps.length)

/-- Model of Instance.makeLabels against the map heap: the result map is the
freshly allocated copy obtained by inserting every entry of the instance's
labels map into an empty map. -/
def makeLabelsH (h : MapHeap) (labelsRef : Nat) : MapHeap × Nat :=
  h.alloc ((h.get labelsRef).foldl (fun result kv => insertKV result kv.1 kv.2) [])

end Mtail

namespace Github

/-- Split a character list around the first occurrence of the separator
character, returning the parts before and after it. -/
def splitFirst (sep : Char) : List Char → Option (List Char × List Char)
  | [] => none
  | c :: rest =>
    if c = sep then some ([], rest)
    else
      match splitFirst sep rest with
      | none => none
      | some (a, b) => some (c :: a, b)

/-- Model of strings.SplitN with limit 2 and a single-character separator:
split around the first occurrence of the separator only, leaving the
remainder intact. -/
def splitN2 (s : String) (sep : Char) : List String :=
  match splitFirst sep s.data with
  | none => [s]
  | some (a, b) => [String.mk a, String.mk b]

/-- Model of splitRepositoryName: an identifier must split into exactly two
parts around the delimiter, otherwise it is a parse error. -/
def splitRepositoryName (repositoryName : String) : Except String (String × String) :=
  let splits := splitN2 repositoryName '/'
  if splits.length ≠ 2 then
    Except.error (repositoryName ++ " is not of format owner/repository")
  else
    Except.ok (splits.getD 0 "", splits.getD 1 "")

/-- Model of the fields of a githubLib.Repository read by this plugin. -/
structure Repository where
  ownerLogin : String
  name : String
  language : String
  licenseName : String
  stargazersCount : Int
  subscribersCount : Int
  watchersCount : Int
  networkCount : Int
  forksCount : Int
  openIssuesCount : Int
  size : Int
  deriving DecidableEq, Repr

/-- Model of getLicense. -/
def getLicense (rI : Repository) : String :=
  if rI.licenseName ≠ "" then rI.licenseName else "None"

/-- Model of getTags. -/
def getTags (repositoryInfo : Repository) : Tags :=
  [("owner", repositoryInfo.ownerLogin),
   ("name", repositoryInfo.name),
   ("language", repositoryInfo.language),
   ("license", getLicense repositoryInfo)]

abbrev Fields := List (String × Int)

/-- Model of getFields. -/
def getFields (repositoryInfo : Repository) : Fields :=
  [("stars", repositoryInfo.stargazersCount),
   ("subscribers", repositoryInfo.subscribersCount),
   ("watchers", repositoryInfo.watchersCount),
   ("networks", repositoryInfo.networkCount),
   ("forks", repositoryInfo.forksCount),
   ("open_issues", repositoryInfo.openIssuesCount),
   ("size", repositoryInfo.size)]

/-- External API collaborator boundary: the repository get call and the
issue-search call, each fallible. -/
structure Api where
  reposGet : String → String → Except String Repository
  searchIssuesTotal : String → Except String Int

/-- Trace entry for one API call issued by an entity task. -/
inductive ApiCall where
  | reposGet (owner repository : String)
  | searchIssues (q : String)
  deriving DecidableEq, Repr

/-- Model of the search query built by getPullRequestFields. -/
def prQuery (owner repo cls : String) : String :=
  "repo:" ++ owner ++ "/" ++ repo ++ " is:pr is:" ++ cls

/-- Loop of getPullRequestFields over the state classes, also recording the
queries issued: on a search failure the fields accumulated so far are
returned together with the error, and the remaining classes are not
queried. -/
def prLoop (api : Api) (owner repo : String) :
    List String → Fields → List String → Fields × List String × Option String
  | [], fields, queries => (fields, queries, none)
  | cls :: rest, fields, queries =>
    let q := prQuery owner repo cls
    match api.searchIssuesTotal q with
    | .error e => (fields, queries ++ [q], some e)
    | .ok total =>
      prLoop api owner repo rest
        (insertKV fields (cls ++ "_pull_requests") total) (queries ++ [q])

/-- Model of Instance.getPullRequestFields: search open then closed pull
requests, sequentially, returning the per-class counts, the queries issued
and the first error if any. -/
def getPullRequestFields (api : Api) (owner repo : String) :
    Fields × List String × Option String :=
  prLoop api owner repo ["open", "closed"] [] []

/-- Model of the github Instance configuration fields read by Gather. -/
structure Instance where
  Repositories : List String
  AccessToken : String
  AdditionalFields : List String
  deriving DecidableEq, Repr

/-- Body of the per-repository goroutine in Gather (github): parse the
identifier, fetch the primary record, then fetch and merge the configured
additional fields, discarding them when one of their fetches failed.
Returns the pushed fields with their tags (none when the entity is skipped)
together with the trace of API calls the task issued. -/
def entityTask (ins : Instance) (api : Api) (repositoryName : String) :
    Option (Fields × Tags) × List ApiCall :=
  match splitRepositoryName repositoryName with
  | .error _ => (none, [])
  | .ok (owner, repository) =>
    match api.reposGet owner repository with
    | .error _ => (none, [ApiCall.reposGet owner repository])
    | .ok repositoryInfo =>
      let tags := getTags repositoryInfo
      let fields := getFields repositoryInfo
      let r := ins.AdditionalFields.foldl
        (fun (acc : Fields × List ApiCall) (field : String) =>
          if field = "pull-requests" then
            let pr := getPullRequestFields api owner repository
            match pr.2.2 with
            | some _ => (acc.1, acc.2 ++ pr.2.1.map ApiCall.searchIssues)
            | none =>
              (pr.1.foldl (fun fs kv => insertKV fs kv.1 kv.2) acc.1,
               acc.2 ++ pr.2.1.map ApiCall.searchIssues)
          else acc)
        (fields, [ApiCall.reposGet owner repository])
      (some (r.1, tags), r.2)

/-- Results of the per-repository tasks spawned by Gather (github): each
task depends only on its own repository identifier. -/
def gatherTaskResults (ins : Instance) (api : Api) :
    List (Option (Fields × Tags) × List ApiCall) :=
  ins.Repositories.map (entityTask ins api)

/-- Control steps the main goroutine of Gather (github) executes after
client creation: wg.Add over the repository count, one goroutine spawn per
repository, then return. The source sets up the WaitGroup with Add and
per-goroutine Done but never calls wg.Wait, so no barrier step occurs. -/
inductive GatherStep where
  | wgAdd (n : Nat)
  | spawn (repositoryName : String)
  | wgWait
  | ret
  deriving DecidableEq, Repr

/-- Step sequence of the main goroutine of Gather (github), read off the
source: Add, the spawns, then return, with no Wait anywhere. -/
def githubGatherSteps (repos : List String) : List GatherStep :=
  [GatherStep.wgAdd repos.length] ++ repos.map GatherStep.spawn ++ [GatherStep.ret]

/-- Model of createGitHubClient restricted to its observable token handling:
returns the obfuscated token string it stores, or none when a Go string
slice bound is out of range, which is a runtime panic. The slice from 0 to
4 needs at least 4 bytes and the slice from len-3 needs at least 3. -/
def createGitHubClient (accessToken : String) : Option String :=
  if accessToken = "" then some "Unauthenticated"
  else if 4 ≤ accessToken.length ∧ 3 ≤ accessToken.length then
    some (String.mk (accessToken.data.take 4) ++ "..." ++
          String.mk (accessToken.data.drop (accessToken.length - 3)))
  else none

end Github

/-- Concrete mtail instance with no name prefix and no static labels. -/
def exIns : Mtail.Instance := ⟨"", []⟩

/-- Concrete mtail instance with name prefix net_. -/
def exInsNet : Mtail.Instance := ⟨"net_", []⟩

/-- Concrete histogram: total count 20, sum 3, buckets with upper bounds 1
and 5 and cumulative counts 5 and 12. -/
def exHist : Mtail.HistogramData :=
  ⟨20, GoFloat.val 3, [⟨GoFloat.val 1, 5⟩, ⟨GoFloat.val 5, 12⟩]⟩

def exHistMetric : Mtail.Metric := ⟨none, none, none, none, some exHist⟩

/-- Concrete summary: count 8, sum 21, quantiles 0 and 1 with values 3
and 9. -/
def exSumm : Mtail.SummaryData :=
  ⟨8, GoFloat.val 21, [⟨GoFloat.val 0, GoFloat.val 3⟩, ⟨GoFloat.val 1, GoFloat.val 9⟩]⟩

def exSummMetric : Mtail.Metric := ⟨none, none, none, some exSumm, none⟩

def exGaugeNaN : Mtail.Metric := ⟨some GoFloat.nan, none, none, none, none⟩

def exGauge7 : Mtail.Metric := ⟨some (GoFloat.val 7), none, none, none, none⟩

def exUntyped5 : Mtail.Metric := ⟨none, none, some (GoFloat.val 5), none, none⟩

def exRepo : Github.Repository :=
  ⟨"octocat", "Hello-World", "Go", "", 1, 2, 3, 4, 5, 6, 7⟩

/-- API model whose repository fetch always succeeds and whose issue search
always fails. -/
def exApiFail : Github.Api :=
  ⟨fun _ _ => Except.ok exRepo, fun _ => Except.error "boom"⟩

/-- API model where every call succeeds, every search returning total 3. -/
def exApiOk : Github.Api :=
  ⟨fun _ _ => Except.ok exRepo, fun _ => Except.ok 3⟩

/-- Concrete github instance with a well-formed and a malformed repository
identifier. -/
def exGhIns : Github.Instance := ⟨["octocat/Hello-World", "badid"], "", []⟩

/-- Concrete github instance asking for the pull-requests additional
fields. -/
def exGhInsPR : Github.Instance := ⟨["octocat/Hello-World"], "", ["pull-requests"]⟩

/-- Sample sequence HandleHistogram pushes for one histogram metric, in
emission order: count, sum, the synthetic +Inf bucket valued at the total
sample count, then one sample per declared bucket in declared order, each
tagged with its rendered upper bound and valued at its cumulative count. -/
def histEmitted (p : Mtail.Instance) (h : Mtail.HistogramData) (tags : Tags)
    (metricName : String) : SampleList :=
  let namePfx := if goHasPfx metricName p.NamePfx then "" else p.NamePfx
  [NewSample (BuildMetric namePfx metricName "count")
     (GoFloat.val (h.sampleCount : ℚ)) tags [],
   NewSample (BuildMetric namePfx metricName "sum") h.sampleSum tags [],
   NewSample (BuildMetric namePfx metricName "bucket")
     (GoFloat.val (h.sampleCount : ℚ)) tags [[("le", "+Inf")]]] ++
  h.bucket.map (fun b =>
    NewSample (BuildMetric namePfx metricName "bucket")
      (GoFloat.val (b.cumulativeCount : ℚ)) tags [[("le", fmtFloat b.upperBound)]])

/-- Sample sequence HandleSummary pushes for one summary metric, in
emission order: count as a float, sum, then one sample per declared
quantile in declared order, each tagged with its rendered quantile and
valued at the quantile's reported value. -/
def summEmitted (p : Mtail.Instance) (s : Mtail.SummaryData) (tags : Tags)
    (metricName : String) : SampleList :=
  let namePfx := if goHasPfx metricName p.NamePfx then "" else p.NamePfx
  [NewSample (BuildMetric namePfx metricName "count")
     (GoFloat.val (s.sampleCount : ℚ)) tags [],
   NewSample (BuildMetric namePfx metricName "sum") s.sampleSum tags []] ++
  s.quantile.map (fun q =>
    NewSample (BuildMetric namePfx metricName "") q.value tags
      [[("quantile", fmtFloat q.quantile)]])

/-- Concrete heap with one allocated labels map. -/
def exHeap : Mtail.MapHeap := ⟨[[("dc", "us-east"), ("team", "sre")]]⟩

/-- C1: the step sequence of the github Gather contains no wait barrier:
the main goroutine does wg.Add and the per-repository spawns, then returns,
so Gather can return while entity tasks are still in flight. The source
sets up the WaitGroup but never calls wg.Wait. -/
theorem gather_returns_without_barrier (repos : List String) :
    (Github.githubGatherSteps repos).count Github.GatherStep.wgWait = 0 ∧
    (Github.githubGatherSteps repos).count Github.GatherStep.ret = 1 := by
  constructor
  · refine List.count_eq_zero.mpr ?_
    simp [Github.githubGatherSteps]
  · simp [Github.githubGatherSteps, List.count_append, List.count_cons,
      List.count_eq_zero, List.mem_map]

/-- C4: on the plain numeric path a NaN value yields no sample for the
metric and a non-NaN value yields exactly one sample whose value equals
the input value. -/
theorem plain_numeric_nan_drop (p : Mtail.Instance) (m : Mtail.Metric) (tags : Tags)
    (metricName : String) (slist : SampleList) (v : GoFloat)
    (hv : m.gauge = some v ∨ m.gauge = none ∧ m.counter = some v ∨
      m.gauge = none ∧ m.counter = none ∧ m.untyped = some v) :
    (v.isNaN = true → p.handleGaugeCounter m tags metricName slist = slist) ∧
    (v.isNaN = false → ∃ s : Sample,
      p.handleGaugeCounter m tags metricName slist = s :: slist ∧ s.value = v) := by
  have hfields : Mtail.getNameAndValue m metricName =
      if v.isNaN then [] else [(metricName, v)] := by
    rcases hv with h1 | ⟨h1, h2⟩ | ⟨h1, h2, h3⟩
    · simp [Mtail.getNameAndValue, h1]
    · simp [Mtail.getNameAndValue, h1, h2]
    · simp [Mtail.getNameAndValue, h1, h2, h3]
  constructor
  · intro hnan
    simp [Mtail.Instance.handleGaugeCounter, hfields, hnan]
  · intro hnan
    by_cases hb : goHasPfx metricName p.NamePfx
    · exact ⟨NewSample (BuildMetric "" metricName "") v tags [], by
        simp [Mtail.Instance.handleGaugeCounter, hfields, hnan, hb,
          SampleList.pushFront], rfl⟩
    · exact ⟨NewSample (BuildMetric p.NamePfx metricName "") v tags [], by
        simp [Mtail.Instance.handleGaugeCounter, hfields, hnan, hb,
          SampleList.pushFront], rfl⟩

/-- Witness for C4: a NaN gauge emits nothing and a gauge of value 7 emits
exactly one sample of value 7. -/
theorem plain_numeric_nan_drop_witness :
    (exGaugeNaN.gauge = some GoFloat.nan ∧
      exIns.handleGaugeCounter exGaugeNaN [] "m" [] = []) ∧
    (exGauge7.gauge = some (GoFloat.val 7) ∧
      ∃ s : Sample, exIns.handleGaugeCounter exGauge7 [] "m" [] = s :: [] ∧
        s.value = GoFloat.val 7) :=
  ⟨⟨rfl, (plain_numeric_nan_drop exIns exGaugeNaN [] "m" [] GoFloat.nan
      (Or.inl rfl)).1 rfl⟩,
   ⟨rfl, (plain_numeric_nan_drop exIns exGauge7 [] "m" [] (GoFloat.val 7)
      (Or.inl rfl)).2 rfl⟩⟩

/-- C5: name composition on the plain numeric path is idempotent: a metric
name already starting with the configured prefix is emitted unchanged, one
lacking it is emitted with the prefix prepended once. -/
theorem name_composition_idempotent (p : Mtail.Instance) (m : Mtail.Metric)
    (tags : Tags) (metricName : String) (slist : SampleList) (q : ℚ)
    (hv : m.gauge = some (GoFloat.val q)) :
    ∃ s : Sample, p.handleGaugeCounter m tags metricName slist = s :: slist ∧
      s.name = if goHasPfx metricName p.NamePfx then metricName
               else p.NamePfx ++ metricName := by
  by_cases hb : goHasPfx metricName p.NamePfx
  · refine ⟨NewSample (BuildMetric "" metricName "") (GoFloat.val q) tags [], ?_, ?_⟩
    · simp [Mtail.Instance.handleGaugeCounter, Mtail.getNameAndValue, hv,
        GoFloat.isNaN, hb, SampleList.pushFront]
    · simp [NewSample, BuildMetric, hb]
  · refine ⟨NewSample (BuildMetric p.NamePfx metricName "") (GoFloat.val q) tags [], ?_, ?_⟩
    · simp [Mtail.Instance.handleGaugeCounter, Mtail.getNameAndValue, hv,
        GoFloat.isNaN, hb, SampleList.pushFront]
    · simp [NewSample, BuildMetric, hb]

/-- Witness for C5: with prefix net_, the name net_requests is emitted
unchanged and the name requests is emitted as net_requests. -/
theorem name_composition_idempotent_witness :
    (exGauge7.gauge = some (GoFloat.val 7) ∧
      (∃ s : Sample, exInsNet.handleGaugeCounter exGauge7 [] "net_requests" [] = s :: [] ∧
        s.name = if goHasPfx "net_requests" exInsNet.NamePfx then "net_requests"
                 else exInsNet.NamePfx ++ "net_requests")) ∧
    (∃ s : Sample, exInsNet.handleGaugeCounter exGauge7 [] "requests" [] = s :: [] ∧
      s.name = if goHasPfx "requests" exInsNet.NamePfx then "requests"
               else exInsNet.NamePfx ++ "requests") :=
  ⟨⟨rfl, name_composition_idempotent exInsNet exGauge7 [] "net_requests" [] 7 rfl⟩,
   name_composition_idempotent exInsNet exGauge7 [] "requests" [] 7 rfl⟩

/-- C6: the classifier sends SUMMARY to the summary strategy, HISTOGRAM to
the histogram strategy and every other kind, recognized or not, to the
plain numeric path, which raises no error and still emits the raw numeric
value as one sample. -/
theorem classifier_dispatch (ins : Mtail.Instance) (t : Mtail.MetricType)
    (m : Mtail.Metric) (tags : Tags) (metricName : String) (slist : SampleList) (q : ℚ)
    (ht2 : t ≠ Mtail.MetricType_SUMMARY) (ht4 : t ≠ Mtail.MetricType_HISTOGRAM)
    (hg : m.gauge = none) (hc : m.counter = none) (hu : m.untyped = some (GoFloat.val q)) :
    ins.dispatchMetric Mtail.MetricType_SUMMARY m tags metricName slist =
      ins.HandleSummary m tags metricName slist ∧
    ins.dispatchMetric Mtail.MetricType_HISTOGRAM m tags metricName slist =
      ins.HandleHistogram m tags metricName slist ∧
    ins.dispatchMetric t m tags metricName slist =
      ins.handleGaugeCounter m tags metricName slist ∧
    ∃ s : Sample, ins.dispatchMetric t m tags metricName slist = s :: slist ∧
      s.value = GoFloat.val q := by
  have hd : ins.dispatchMetric t m tags metricName slist =
      ins.handleGaugeCounter m tags metricName slist := by
    simp [Mtail.Instance.dispatchMetric, ht2, ht4]
  refine ⟨by simp [Mtail.Instance.dispatchMetric], ?_, hd, ?_⟩
  · simp [Mtail.Instance.dispatchMetric, Mtail.MetricType_SUMMARY,
      Mtail.MetricType_HISTOGRAM]
  · rw [hd]
    by_cases hb : goHasPfx metricName ins.NamePfx
    · exact ⟨NewSample (BuildMetric "" metricName "") (GoFloat.val q) tags [], by
        simp [Mtail.Instance.handleGaugeCounter, Mtail.getNameAndValue, hg, hc, hu,
          GoFloat.isNaN, hb, SampleList.pushFront], rfl⟩
    · exact ⟨NewSample (BuildMetric ins.NamePfx metricName "") (GoFloat.val q) tags [], by
        simp [Mtail.Instance.handleGaugeCounter, Mtail.getNameAndValue, hg, hc, hu,
          GoFloat.isNaN, hb, SampleList.pushFront], rfl⟩

/-- Witness for C6 at the unrecognized kind 99 with an untyped value 5. -/
theorem classifier_dispatch_witness :
    ((99 : Mtail.MetricType) ≠ Mtail.MetricType_SUMMARY ∧
     (99 : Mtail.MetricType) ≠ Mtail.MetricType_HISTOGRAM ∧
     exUntyped5.gauge = none ∧ exUntyped5.counter = none ∧
     exUntyped5.untyped = some (GoFloat.val 5)) ∧
    (exIns.dispatchMetric Mtail.MetricType_SUMMARY exUntyped5 [] "m" [] =
      exIns.HandleSummary exUntyped5 [] "m" [] ∧
     exIns.dispatchMetric Mtail.MetricType_HISTOGRAM exUntyped5 [] "m" [] =
      exIns.HandleHistogram exUntyped5 [] "m" [] ∧
     exIns.dispatchMetric 99 exUntyped5 [] "m" [] =
      exIns.handleGaugeCounter exUntyped5 [] "m" [] ∧
     ∃ s : Sample, exIns.dispatchMetric 99 exUntyped5 [] "m" [] = s :: [] ∧
       s.value = GoFloat.val 5) :=
  ⟨⟨by decide, by decide, rfl, rfl, rfl⟩,
   classifier_dispatch exIns 99 exUntyped5 [] "m" [] 5
     (by decide) (by decide) rfl rfl rfl⟩

/-- C2: for every Histogram metric with k declared buckets, HandleHistogram
emits exactly 3 + k samples by pushing, in this order, the count sample,
the sum sample, the synthetic +Inf bucket sample valued at the total
sample count, then one bucket sample per declared bucket in declared
order, tagged with its rendered upper bound and valued at its cumulative
count. -/
theorem histogram_flattening (p : Mtail.Instance) (m : Mtail.Metric) (tags : Tags)
    (metricName : String) (slist : SampleList) (h : Mtail.HistogramData)
    (hm : m.histogram = some h) :
    p.HandleHistogram m tags metricName slist =
      (histEmitted p h tags metricName).foldl SampleList.pushFront slist ∧
    (histEmitted p h tags metricName).length = 3 + h.bucket.length := by
  constructor
  · simp [Mtail.Instance.HandleHistogram, histEmitted, hm, List.foldl_append,
      List.foldl_map, SampleList.pushFront]
  · simp [histEmitted]
    omega

/-- Witness for C2 at the request_latency example histogram with two
buckets. -/
theorem histogram_flattening_witness :
    exHistMetric.histogram = some exHist ∧
    (exIns.HandleHistogram exHistMetric [] "request_latency" [] =
      (histEmitted exIns exHist [] "request_latency").foldl SampleList.pushFront [] ∧
     (histEmitted exIns exHist [] "request_latency").length = 3 + exHist.bucket.length) :=
  ⟨rfl, histogram_flattening exIns exHistMetric [] "request_latency" [] exHist rfl⟩

/-- C3: for every Summary metric with k declared quantiles, HandleSummary
emits exactly 2 + k samples by pushing, in this order, the count sample
with the count as a float, the sum sample, then one sample per declared
quantile in declared order, tagged with its rendered quantile and carrying
the quantile's reported value. -/
theorem summary_flattening (p : Mtail.Instance) (m : Mtail.Metric) (tags : Tags)
    (metricName : String) (slist : SampleList) (s : Mtail.SummaryData)
    (hm : m.summary = some s) :
    p.HandleSummary m tags metricName slist =
      (summEmitted p s tags metricName).foldl SampleList.pushFront slist ∧
    (summEmitted p s tags metricName).length = 2 + s.quantile.length := by
  constructor
  · simp [Mtail.Instance.HandleSummary, summEmitted, hm, List.foldl_append,
      List.foldl_map, SampleList.pushFront]
  · simp [summEmitted]
    omega

/-- Witness for C3 at a summary with two quantiles. -/
theorem summary_flattening_witness :
    exSummMetric.summary = some exSumm ∧
    (exIns.HandleSummary exSummMetric [] "request_latency" [] =
      (summEmitted exIns exSumm [] "request_latency").foldl SampleList.pushFront [] ∧
     (summEmitted exIns exSumm [] "request_latency").length = 2 + exSumm.quantile.length) :=
  ⟨rfl, summary_flattening exIns exSummMetric [] "request_latency" [] exSumm rfl⟩

/-- C10: a non-empty access token shorter than four characters makes the
token obfuscation slice out of range, modelled as a panic; with four or
more characters both slices are in range and a client is produced. -/
theorem short_token_out_of_range (token : String) :
    (token ≠ "" → token.length < 4 → Github.createGitHubClient token = none) ∧
    (token ≠ "" → 4 ≤ token.length →
      ∃ s, Github.createGitHubClient token = some s) := by
  constructor
  · intro hne hlt
    have hcond : ¬(4 ≤ token.length ∧ 3 ≤ token.length) := by omega
    simp [Github.createGitHubClient, hne, hcond]
  · intro hne hle
    have hcond : 4 ≤ token.length ∧ 3 ≤ token.length := ⟨hle, by omega⟩
    refine ⟨String.mk (token.data.take 4) ++ "..." ++
      String.mk (token.data.drop (token.length - 3)), ?_⟩
    simp [Github.createGitHubClient, hne, hcond]

/-- Witness for C10: the three-character token abc panics while the
six-character token abcdef is obfuscated. -/
theorem short_token_out_of_range_witness :
    ("abc" ≠ "" ∧ "abc".length < 4 ∧ Github.createGitHubClient "abc" = none) ∧
    ("abcdef" ≠ "" ∧ 4 ≤ "abcdef".length ∧
      ∃ s, Github.createGitHubClient "abcdef" = some s) :=
  ⟨⟨by decide, by decide,
      (short_token_out_of_range "abc").1 (by decide) (by decide)⟩,
   ⟨by decide, by decide,
      (short_token_out_of_range "abcdef").2 (by decide) (by decide)⟩⟩

/-- C7: identifiers split into owner and resource around the delimiter; a
delimiter-free identifier is a parse error whose entity task pushes
nothing and issues no API call, and replacing one entity's identifier by
the malformed one leaves every other entity task's result unchanged. -/
theorem identifier_parse_and_skip (ins : Github.Instance) (api : Github.Api)
    (i j : Nat) (hij : j ≠ i) :
    Github.splitRepositoryName "octocat/Hello-World" =
      Except.ok ("octocat", "Hello-World") ∧
    (∃ e, Github.splitRepositoryName "badid" = Except.error e) ∧
    Github.entityTask ins api "badid" = (none, []) ∧
    (Github.gatherTaskResults
        { ins with Repositories := ins.Repositories.set i "badid" } api)[j]? =
      (Github.gatherTaskResults ins api)[j]? := by
  refine ⟨rfl, ⟨_, rfl⟩, rfl, ?_⟩
  have hfun : Github.entityTask
      { ins with Repositories := ins.Repositories.set i "badid" } api =
      Github.entityTask ins api := rfl
  simp only [Github.gatherTaskResults, hfun, List.getElem?_map]
  rw [List.getElem?_set_ne (Ne.symm hij)]

/-- Witness for C7 at a two-entity instance whose second identifier is
replaced by the malformed badid. -/
theorem identifier_parse_and_skip_witness :
    (0 : Nat) ≠ 1 ∧
    (Github.splitRepositoryName "octocat/Hello-World" =
       Except.ok ("octocat", "Hello-World") ∧
     (∃ e, Github.splitRepositoryName "badid" = Except.error e) ∧
     Github.entityTask exGhIns exApiOk "badid" = (none, []) ∧
     (Github.gatherTaskResults
         { exGhIns with Repositories := exGhIns.Repositories.set 1 "badid" } exApiOk)[0]? =
       (Github.gatherTaskResults exGhIns exApiOk)[0]?) :=
  ⟨by decide, identifier_parse_and_skip exGhIns exApiOk 1 0 (by decide)⟩

/-- C8: with a successful primary fetch, the additional pull-request fields
are fetched after the primary record, state class by state class in the
order open then closed, and merged into the entity's field set; a failing
search keeps and emits the primary fields and aborts only the remaining
searches of that entity. -/
theorem additional_fields_partial_failure (ins : Github.Instance) (api : Github.Api)
    (repositoryName owner repository : String) (repositoryInfo : Github.Repository)
    (hsplit : Github.splitRepositoryName repositoryName = Except.ok (owner, repository))
    (hget : api.reposGet owner repository = Except.ok repositoryInfo)
    (haf : ins.AdditionalFields = ["pull-requests"]) :
    (∀ a b, api.searchIssuesTotal (Github.prQuery owner repository "open") = Except.ok a →
      api.searchIssuesTotal (Github.prQuery owner repository "closed") = Except.ok b →
      Github.entityTask ins api repositoryName =
        (some (Github.getFields repositoryInfo ++
            [("open_pull_requests", a), ("closed_pull_requests", b)],
          Github.getTags repositoryInfo),
         [Github.ApiCall.reposGet owner repository,
          Github.ApiCall.searchIssues (Github.prQuery owner repository "open"),
          Github.ApiCall.searchIssues (Github.prQuery owner repository "closed")])) ∧
    (∀ e, api.searchIssuesTotal (Github.prQuery owner repository "open") = Except.error e →
      Github.entityTask ins api repositoryName =
        (some (Github.getFields repositoryInfo, Github.getTags repositoryInfo),
         [Github.ApiCall.reposGet owner repository,
          Github.ApiCall.searchIssues (Github.prQuery owner repository "open")])) ∧
    (∀ a e, api.searchIssuesTotal (Github.prQuery owner repository "open") = Except.ok a →
      api.searchIssuesTotal (Github.prQuery owner repository "closed") = Except.error e →
      Github.entityTask ins api repositoryName =
        (some (Github.getFields repositoryInfo, Github.getTags repositoryInfo),
         [Github.ApiCall.reposGet owner repository,
          Github.ApiCall.searchIssues (Github.prQuery owner repository "open"),
          Github.ApiCall.searchIssues (Github.prQuery owner repository "closed")])) := by
  refine ⟨?_, ?_, ?_⟩
  · intro a b hopen hclosed
    simp [Github.entityTask, hsplit, hget, haf, Github.getPullRequestFields,
      Github.prLoop, hopen, hclosed, insertKV, Github.getFields]
  · intro e hopen
    simp [Github.entityTask, hsplit, hget, haf, Github.getPullRequestFields,
      Github.prLoop, hopen]
  · intro a e hopen hclosed
    simp [Github.entityTask, hsplit, hget, haf, Github.getPullRequestFields,
      Github.prLoop, hopen, hclosed]

/-- Witness for C8: with a repository fetch that succeeds and a search that
fails, the entity emits exactly the primary fields and never issues the
closed-class search. -/
theorem additional_fields_partial_failure_witness :
    (Github.splitRepositoryName "octocat/Hello-World" =
       Except.ok ("octocat", "Hello-World") ∧
     exApiFail.reposGet "octocat" "Hello-World" = Except.ok exRepo ∧
     exGhInsPR.AdditionalFields = ["pull-requests"]) ∧
    Github.entityTask exGhInsPR exApiFail "octocat/Hello-World" =
      (some (Github.getFields exRepo, Github.getTags exRepo),
       [Github.ApiCall.reposGet "octocat" "Hello-World",
        Github.ApiCall.searchIssues (Github.prQuery "octocat" "Hello-World" "open")]) :=
  ⟨⟨rfl, rfl, rfl⟩,
   (additional_fields_partial_failure exGhInsPR exApiFail "octocat/Hello-World"
      "octocat" "Hello-World" exRepo rfl rfl rfl).2.1 "boom" rfl⟩

/-- Insertion of a key absent from an association list appends the pair. -/
theorem insertKV_of_keys_ne {β : Type} (m : List (String × β)) (k : String) (v : β)
    (hk : ∀ p ∈ m, p.1 ≠ k) : insertKV m k v = m ++ [(k, v)] := by
  have hany : m.any (fun p => p.1 == k) = false := by
    rw [List.any_eq_false]
    intro p hp
    simpa using hk p hp
  simp [insertKV, hany]

/-- Folding map insertion over entries with fresh, pairwise distinct keys
appends the entries in order. -/
theorem foldl_insertKV_of_disjoint {β : Type} :
    ∀ (l acc : List (String × β)), (l.map Prod.fst).Nodup →
      (∀ p ∈ l, ∀ q ∈ acc, p.1 ≠ q.1) →
      l.foldl (fun r kv => insertKV r kv.1 kv.2) acc = acc ++ l
  | [], acc, _, _ => by simp
  | (k, v) :: t, acc, hnd, hdisj => by
    have h1 : insertKV acc k v = acc ++ [(k, v)] := by
      apply insertKV_of_keys_ne
      intro q hq
      exact fun hqk => hdisj (k, v) (by simp) q hq hqk.symm
    have hk : k ∉ t.map Prod.fst := by
      have := hnd
      simp only [List.map_cons, List.nodup_cons] at this
      exact this.1
    have ht := foldl_insertKV_of_disjoint t (acc ++ [(k, v)])
      (by
        have := hnd
        simp only [List.map_cons, List.nodup_cons] at this
        exact this.2)
      (by
        intro p hp q hq
        rcases List.mem_append.mp hq with hq1 | hq2
        · exact hdisj p (List.mem_cons_of_mem _ hp) q hq1
        · have hq' : q = (k, v) := by simpa using hq2
          subst hq'
          intro hpk
          exact hk (by
            have : p.1 ∈ t.map Prod.fst := List.mem_map.mpr ⟨p, hp, rfl⟩
            simpa [hpk] using this))
    calc ((k, v) :: t).foldl (fun r kv => insertKV r kv.1 kv.2) acc
        = t.foldl (fun r kv => insertKV r kv.1 kv.2) (insertKV acc k v) := by
          simp [List.foldl_cons]
      _ = t.foldl (fun r kv => insertKV r kv.1 kv.2) (acc ++ [(k, v)]) := by rw [h1]
      _ = (acc ++ [(k, v)]) ++ t := ht
      _ = acc ++ ((k, v) :: t) := by simp

/-- Copying a map with pairwise distinct keys entry by entry into an empty
map reproduces it exactly. -/
theorem foldl_insertKV_copy {β : Type} (l : List (String × β))
    (hnd : (l.map Prod.fst).Nodup) :
    l.foldl (fun r kv => insertKV r kv.1 kv.2) [] = l := by
  simpa using foldl_insertKV_of_disjoint l [] hnd (by simp)

/-- C9: makeLabels allocates a fresh map holding exactly the instance's
configured label pairs: the returned reference is not the instance's labels
reference, the copy equals the stored labels, allocation leaves the stored
labels unchanged, and writing any tag through the returned reference leaves
the stored labels unchanged as well. -/
theorem makeLabels_fresh_copy (h : Mtail.MapHeap) (labelsRef : Nat)
    (hlt : labelsRef < h.maps.length)
    (hnd : ((h.get labelsRef).map Prod.fst).Nodup) :
    (Mtail.makeLabelsH h labelsRef).2 ≠ labelsRef ∧
    (Mtail.makeLabelsH h labelsRef).1.get (Mtail.makeLabelsH h labelsRef).2 =
      h.get labelsRef ∧
    (Mtail.makeLabelsH h labelsRef).1.get labelsRef = h.get labelsRef ∧
    ∀ k v, ((Mtail.makeLabelsH h labelsRef).1.set (Mtail.makeLabelsH h labelsRef).2
        (insertKV ((Mtail.makeLabelsH h labelsRef).1.get
          (Mtail.makeLabelsH h labelsRef).2) k v)).get labelsRef =
      h.get labelsRef := by
  have hcopy : (h.get labelsRef).foldl (fun r kv => insertKV r kv.1 kv.2) [] =
      h.get labelsRef := foldl_insertKV_copy _ hnd
  have hne : h.maps.length ≠ labelsRef := by omega
  have hfresh : ∀ m : Tags, Mtail.MapHeap.get ⟨h.maps ++ [m]⟩ h.maps.length = m := by
    intro m
    simp [Mtail.MapHeap.get, List.getD_eq_getElem?_getD,
      List.getElem?_append_right (Nat.le_refl h.maps.length)]
  have hold : ∀ m : Tags, Mtail.MapHeap.get ⟨h.maps ++ [m]⟩ labelsRef = h.get labelsRef := by
    intro m
    simp [Mtail.MapHeap.get, List.getD_eq_getElem?_getD]
    rw [List.getElem?_append]
    simp [hlt]
  refine ⟨by simpa [Mtail.makeLabelsH, Mtail.MapHeap.alloc] using hne, ?_, ?_, ?_⟩
  · show Mtail.MapHeap.get ⟨h.maps ++ [_]⟩ h.maps.length = h.get labelsRef
    rw [hfresh]
    exact hcopy
  · exact hold _
  · intro k v
    show Mtail.MapHeap.get
      ⟨(h.maps ++ [_]).set h.maps.length
        (insertKV (Mtail.MapHeap.get ⟨h.maps ++ [_]⟩ h.maps.length) k v)⟩ labelsRef =
      h.get labelsRef
    simp only [Mtail.MapHeap.get, List.getD_eq_getElem?_getD,
      List.getElem?_set_ne hne]
    have := hold ((h.get labelsRef).foldl (fun r kv => insertKV r kv.1 kv.2) [])
    simpa [Mtail.MapHeap.get, List.getD_eq_getElem?_getD] using this

/-- Witness for C9 at a heap holding one two-entry labels map. -/
theorem makeLabels_fresh_copy_witness :
    (0 < exHeap.maps.length ∧ ((exHeap.get 0).map Prod.fst).Nodup) ∧
    ((Mtail.makeLabelsH exHeap 0).2 ≠ 0 ∧
     (Mtail.makeLabelsH exHeap 0).1.get (Mtail.makeLabelsH exHeap 0).2 =
       exHeap.get 0 ∧
     (Mtail.makeLabelsH exHeap 0).1.get 0 = exHeap.get 0 ∧
     ∀ k v, ((Mtail.makeLabelsH exHeap 0).1.set (Mtail.makeLabelsH exHeap 0).2
         (insertKV ((Mtail.makeLabelsH exHeap 0).1.get
           (Mtail.makeLabelsH exHeap 0).2) k v)).get 0 = exHeap.get 0) :=
  ⟨⟨by decide, by decide⟩, makeLabels_fresh_copy exHeap 0 (by decide) (by decide)⟩

end Categraf
